import Mathlib

/-!
# Verification of the gosense sensor-engine pipeline

Shallow embedding of the core pipeline of the `gosense` repository
(`internal/engine/engine.go`, `internal/engine` types and config loading)
together with proofs of the specification claims.

The embedding covers:

* the `Quality` enum and `determineQuality` (quality tagging from one
  uniform draw per envelope);
* the `Config` / `EngineConfig` structures, `ToEngineConfig` and
  `NewEngine` (construction-time behaviour);
* the batcher loop `processBatches` as a fold over the events it reacts
  to (envelope arrival / batch-timer tick), plus the final flush on
  channel close;
* the whole `Start` pipeline (generator goroutine, batcher goroutine,
  publisher workers, orchestrator shutdown choreography) as a
  nondeterministic labelled transition system over an explicit state.
  Go `select` statements with several ready cases choose
  nondeterministically, which the transition relation mirrors; the
  branches of the code that react to context cancellation by returning
  early (dropping buffered data) are tagged by the `drop` flag so both
  the full behaviour (`drop = true`) and the drain-only runs
  (`drop = false`) can be reasoned about.
-/

namespace GoSense

/-! ## Quality (`types.go`) and `determineQuality` (`engine.go` lines 174-187) -/

/-- The `Quality` enum from `types.go`: closed enum of the four quality tags. -/
inductive Quality where
  | OK
  | NOISY
  | PARTIAL
  | CORRUPT
deriving DecidableEq, Repr

/-- Model of `determineQuality` from `engine.go`: one uniform draw `r` is compared
against cumulative thresholds `0.01`, `0.03`, `0.08`.  The draw
`rand.Float64()` lies in `[0,1)`; it is modelled as a rational. -/
def determineQuality (r : ℚ) : Quality :=
  if r < 1/100 then .CORRUPT
  else if r < 3/100 then .PARTIAL
  else if r < 8/100 then .NOISY
  else .OK

/-! ## Configuration (`types.go`, `config.go`) -/

/-- The `Config` structure from `types.go`.  Go durations are `int64` nanosecond counts
and Go `int` is a signed integer, so every field is an `Int`. -/
structure Config where
  ProductionRate : Int
  BatchSize : Int
  BatchTimeout : Int
  MaxWorkers : Int
deriving DecidableEq, Repr

/-- The `EngineConfig` structure from `config.go`: the JSON-facing engine section, with
durations still in string form. -/
structure EngineConfig where
  ProductionRate : String
  BatchSize : Int
  BatchTimeout : String
  MaxWorkers : Int
deriving DecidableEq, Repr

/-- Model of `ConfigFile.ToEngineConfig` from `config.go` lines 62-79.  The Go
code calls `time.ParseDuration` (standard library, external to the
repository), modelled as an explicit parameter `parseDuration` returning
`none` exactly when Go would return a parse error.  The only checks
performed are the two duration parses; `BatchSize` and `MaxWorkers` are
copied through unexamined. -/
def ToEngineConfig (parseDuration : String → Option Int)
    (c : EngineConfig) : Except String Config :=
  match parseDuration c.ProductionRate with
  | none => .error "invalid production_rate"
  | some productionRate =>
    match parseDuration c.BatchTimeout with
    | none => .error "invalid batch_timeout"
    | some batchTimeout =>
      .ok ⟨productionRate, c.BatchSize, batchTimeout, c.MaxWorkers⟩

/-- The sensor envelope `SensorData[T]` from `types.go`.  The timestamp
(`time.Time`) is an instant, modelled as an integer clock reading; the
payload is the opaque generic `T`. -/
structure SensorData (T : Type) where
  ID : String
  Timestamp : Int
  Data : T
  Quality : Quality
deriving DecidableEq, Repr

/-- The `Engine[T]` structure from `types.go`: configuration plus the two value-source
capabilities.  `seeder` is the stream of scalars successive
`Seeder.Generate()` calls return, and `function` is
`SensorFunction.Generate` (payload from scalar and timestamp).  The
publisher capability is behavioural and is modelled in the transition
system below. -/
structure Engine (T : Type) where
  config : Config
  seeder : Nat → ℚ
  function : ℚ → Int → T

/-- Model of `NewEngine` from `types.go` lines 60-72: it stores its arguments and
performs no validation of any kind. -/
def NewEngine {T : Type} (config : Config) (seeder : Nat → ℚ)
    (function : ℚ → Int → T) : Engine T :=
  ⟨config, seeder, function⟩

/-! ## The batcher loop (`processBatches`, `engine.go` lines 95-151) as a fold

While the data channel is open, `processBatches` reacts to two kinds of
events: an envelope arriving on the data channel and the batch-timeout
ticker firing.  `processEvent` is the body of the loop for one event;
`processBatchesRun` folds it over an event sequence; `batcherOutput`
adds the final flush performed when the data channel is closed
(lines 116-125). -/

/-- An event the batcher `select` can react to while the data channel is
open: an envelope arrival or a batch-ticker tick. -/
inductive BEvent (α : Type) where
  | data (e : α)
  | timer
deriving DecidableEq, Repr

/-- Batcher-loop state: the current batch and the batches sent to the
batch channel so far. -/
structure BatcherState (α : Type) where
  batch : List α
  sent : List (List α)
deriving DecidableEq, Repr

/-- One iteration of the `processBatches` loop (lines 115-149): an
arriving envelope is appended and the batch is flushed as soon as
`len(batch) >= BatchSize`; a ticker fire flushes a non-empty batch and
does nothing on an empty one. -/
def processEvent {α : Type} (batchSize : Int) (s : BatcherState α) :
    BEvent α → BatcherState α
  | .data e =>
    let b := s.batch ++ [e]
    if (b.length : Int) ≥ batchSize then ⟨[], s.sent ++ [b]⟩ else ⟨b, s.sent⟩
  | .timer =>
    if s.batch.isEmpty then s else ⟨[], s.sent ++ [s.batch]⟩

/-- The `processBatches` loop folded over a whole event sequence,
starting from an empty batch. -/
def processBatchesRun {α : Type} (batchSize : Int) (evs : List (BEvent α)) :
    BatcherState α :=
  evs.foldl (processEvent batchSize) ⟨[], []⟩

/-- All batches the batcher emits for an event sequence after which the
data channel is closed: the batches sent during the loop, plus the final
flush of a non-empty current batch (lines 116-125). -/
def batcherOutput {α : Type} (batchSize : Int) (evs : List (BEvent α)) :
    List (List α) :=
  let s := processBatchesRun batchSize evs
  if s.batch.isEmpty then s.sent else s.sent ++ [s.batch]

/-- The envelopes carried by an event sequence, in arrival order. -/
def eventData {α : Type} (evs : List (BEvent α)) : List α :=
  evs.filterMap fun ev => match ev with | .data e => some e | .timer => none

/-! ## The generator's envelope construction (`generateData`, lines 61-93) -/

/-- The identifier `fmt.Sprintf("sensor-%d", counter)` assigned at
`engine.go` line 79. -/
def sensorID (k : Nat) : String := "sensor-" ++ Nat.repr k

/-- The envelope built on the tick at which the generator's `counter`
equals `k` (`engine.go` lines 74-83).  `seeder` is the stream of values
the `Seeder` returns, `clock` the stream of `time.Now()` readings and
`draw` the stream of `rand.Float64()` draws consumed by
`determineQuality`; `f` is `SensorFunction.Generate`.  The counter is
incremented only when the send into the data channel succeeds, so the
`k`-th successfully enqueued envelope is exactly `mkSensorData … k`. -/
def mkSensorData {T : Type} (seeder : Nat → ℚ) (clock : Nat → Int)
    (draw : Nat → ℚ) (f : ℚ → Int → T) (k : Nat) : SensorData T :=
  { ID := sensorID k
    Timestamp := clock k
    Data := f (seeder k) (clock k)
    Quality := determineQuality (draw k) }

/-! ## The `Start` pipeline as a transition system (`engine.go` lines 11-172)

`Start` wires up:

* `dataChan`, a buffered channel of capacity 100 (line 14), modelled as
  the FIFO list `dataQ` plus the `dataClosed` flag;
* `batchChan`, a buffered channel of capacity 10 (line 15), modelled as
  `batchQ` plus `batchClosed`;
* one `generateData` goroutine, one `processBatches` goroutine and
  `MaxWorkers` `publishWorker` goroutines;
* the orchestrator itself, which blocks on `<-ctx.Done()` and then runs
  the shutdown sequence of lines 34-57, modelled by `phase`
  (0 = waiting for cancellation, 1 = `dataChan` closed, 2 = `batchChan`
  closed, 3 = publisher closed and `Start` returned).

Each goroutine is a separate process; a Go `select` with several ready
cases picks one nondeterministically, so every ready case is a separate
transition.  The workers are interchangeable, hence kept in a multiset.
`log` is the history of envelopes successfully sent into `dataChan`, in
send order (a ghost variable: it records exactly the successful sends of
line 86).  `delivered` is the sequence of batches for which a
`PublishBatch` call has completed, and `pubErrors` counts the failed
ones (the `fmt.Printf` of line 168). -/

/-- Status of the `generateData` goroutine. -/
inductive GenStatus where
  | running
  | done
deriving DecidableEq, Repr

/-- Status of the `processBatches` goroutine. -/
inductive BatStatus where
  | running
  | done
deriving DecidableEq, Repr

/-- Status of one `publishWorker` goroutine: waiting on the `select`,
inside a `PublishBatch` call (whose outcome `ok` the sink decides), or
returned. -/
inductive WStatus (T : Type) where
  | idle
  | publishing (b : List (SensorData T)) (ok : Bool)
  | done
deriving DecidableEq, Repr

/-- Global state of one run of `Start`. -/
structure EState (T : Type) where
  cancelled : Bool
  gen : GenStatus
  counter : Nat
  log : List (SensorData T)
  dataQ : List (SensorData T)
  dataClosed : Bool
  bat : BatStatus
  cur : List (SensorData T)
  batchQ : List (List (SensorData T))
  batchClosed : Bool
  workers : Multiset (WStatus T)
  delivered : List (List (SensorData T))
  pubErrors : Nat
  phase : Nat
  sinkClosed : Bool
deriving DecidableEq

/-- The state in which `Start` has just spawned its goroutines
(lines 12-32). -/
def initState {T : Type} (cfg : Config) : EState T :=
  { cancelled := false
    gen := .running
    counter := 0
    log := []
    dataQ := []
    dataClosed := false
    bat := .running
    cur := []
    batchQ := []
    batchClosed := false
    workers := Multiset.replicate cfg.MaxWorkers.toNat .idle
    delivered := []
    pubErrors := 0
    phase := 0
    sinkClosed := false }

/-- One transition of the pipeline.  `genv k` is the envelope the
generator builds when its counter is `k`.  Constructors tagged with
`drop = true` are the code paths that react to `ctx.Done()` by
returning early and can therefore abandon buffered data; a run of the
relation with `drop = false` is one in which every goroutine happens to
drain its input channel to the end (`drop = true` allows all code
paths). -/
inductive Step {T : Type} (cfg : Config) (genv : Nat → SensorData T)
    (drop : Bool) : EState T → EState T → Prop
  /-- The caller's context is cancelled (external event, at most once). -/
  | cancel (s : EState T) :
      s.cancelled = false →
      Step cfg genv drop s { s with cancelled := true }
  /-- Lines 73-87: a ticker tick fires, the envelope is built and the
  send into `dataChan` succeeds (possible iff the buffer has room);
  only then is the counter incremented. -/
  | genSend (s : EState T) :
      s.gen = .running → s.dataQ.length < 100 →
      Step cfg genv drop s
        { s with dataQ := s.dataQ ++ [genv s.counter]
                 log := s.log ++ [genv s.counter]
                 counter := s.counter + 1 }
  /-- Lines 71-72 or 88-89: the generator observes `ctx.Done()` and
  returns (an envelope built but not yet sent is discarded without
  touching the counter). -/
  | genExit (s : EState T) :
      s.gen = .running → s.cancelled = true →
      Step cfg genv drop s { s with gen := .done }
  /-- Lines 115-127: an envelope is received and appended, and the batch
  stays below `BatchSize`. -/
  | batRecv (s : EState T) (e : SensorData T) (rest : List (SensorData T)) :
      s.bat = .running → s.dataQ = e :: rest →
      ((s.cur.length + 1 : Int) < cfg.BatchSize) →
      Step cfg genv drop s { s with dataQ := rest, cur := s.cur ++ [e] }
  /-- Lines 115-137: an envelope is received, the batch reaches
  `BatchSize` and the send into `batchChan` succeeds. -/
  | batRecvFlush (s : EState T) (e : SensorData T) (rest : List (SensorData T)) :
      s.bat = .running → s.dataQ = e :: rest →
      ((s.cur.length + 1 : Int) ≥ cfg.BatchSize) → s.batchQ.length < 10 →
      Step cfg genv drop s
        { s with dataQ := rest, cur := [],
                 batchQ := s.batchQ ++ [s.cur ++ [e]] }
  /-- Lines 130-136, `case <-ctx.Done()`: the full batch cannot be (or
  simply is not) sent and the batcher returns, abandoning it. -/
  | batRecvFlushDrop (s : EState T) (e : SensorData T) (rest : List (SensorData T)) :
      drop = true → s.bat = .running → s.dataQ = e :: rest →
      ((s.cur.length + 1 : Int) ≥ cfg.BatchSize) → s.cancelled = true →
      Step cfg genv drop s
        { s with dataQ := rest, cur := s.cur ++ [e], bat := .done }
  /-- Lines 139-148: the batch ticker fires with a non-empty batch and
  the flush into `batchChan` succeeds.  (With an empty batch the tick
  changes nothing.) -/
  | batTimerFlush (s : EState T) :
      s.bat = .running → s.cur ≠ [] → s.batchQ.length < 10 →
      Step cfg genv drop s
        { s with cur := [], batchQ := s.batchQ ++ [s.cur] }
  /-- Lines 143-146, `case <-ctx.Done()`: the timer flush loses the race
  against cancellation and the batcher returns, abandoning the batch. -/
  | batTimerFlushDrop (s : EState T) :
      drop = true → s.bat = .running → s.cur ≠ [] → s.cancelled = true →
      Step cfg genv drop s { s with bat := .done }
  /-- Lines 115-125: `dataChan` is closed and drained and the current
  batch is empty, so the batcher just returns. -/
  | batClosedExit (s : EState T) :
      s.bat = .running → s.dataClosed = true → s.dataQ = [] → s.cur = [] →
      Step cfg genv drop s { s with bat := .done }
  /-- Lines 115-125: `dataChan` is closed and drained; the final flush
  of the non-empty current batch succeeds and the batcher returns. -/
  | batClosedFlush (s : EState T) :
      s.bat = .running → s.dataClosed = true → s.dataQ = [] → s.cur ≠ [] →
      s.batchQ.length < 10 →
      Step cfg genv drop s
        { s with cur := [], batchQ := s.batchQ ++ [s.cur], bat := .done }
  /-- Lines 119-122, `case <-ctx.Done()`: the final flush loses the race
  against cancellation and the batch is abandoned. -/
  | batClosedFlushDrop (s : EState T) :
      drop = true → s.bat = .running → s.dataClosed = true → s.dataQ = [] →
      s.cur ≠ [] → s.cancelled = true →
      Step cfg genv drop s { s with bat := .done }
  /-- Lines 105-113: the batcher observes `ctx.Done()`, sends its
  non-empty current batch and returns — whatever is still buffered in
  `dataChan` is abandoned. -/
  | batCancelFlush (s : EState T) :
      drop = true → s.bat = .running → s.cancelled = true → s.cur ≠ [] →
      s.batchQ.length < 10 →
      Step cfg genv drop s
        { s with cur := [], batchQ := s.batchQ ++ [s.cur], bat := .done }
  /-- Lines 105-113: the batcher observes `ctx.Done()` and returns
  without managing to send anything (empty batch, or the inner `select`
  also picks `ctx.Done()`). -/
  | batCancelDrop (s : EState T) :
      drop = true → s.bat = .running → s.cancelled = true →
      Step cfg genv drop s { s with bat := .done }
  /-- Lines 161-166: an idle worker receives a batch from `batchChan`
  and calls `PublishBatch`; the sink decides the outcome `ok`. -/
  | wRecv (s : EState T) (b : List (SensorData T))
      (bq : List (List (SensorData T))) (rest : Multiset (WStatus T)) (ok : Bool) :
      s.workers = .idle ::ₘ rest → s.batchQ = b :: bq →
      Step cfg genv drop s
        { s with workers := .publishing b ok ::ₘ rest, batchQ := bq }
  /-- Lines 166-170: the `PublishBatch` call completes; on failure the
  error is only logged (counted here) and the worker loops on. -/
  | wPubDone (s : EState T) (b : List (SensorData T)) (ok : Bool)
      (rest : Multiset (WStatus T)) :
      s.workers = .publishing b ok ::ₘ rest →
      Step cfg genv drop s
        { s with workers := .idle ::ₘ rest,
                 delivered := s.delivered ++ [b],
                 pubErrors := s.pubErrors + (if ok then 0 else 1) }
  /-- Lines 161-164: `batchChan` is closed and drained, so the receive
  returns `ok = false` and the worker returns. -/
  | wClosedExit (s : EState T) (rest : Multiset (WStatus T)) :
      s.workers = .idle ::ₘ rest → s.batchClosed = true → s.batchQ = [] →
      Step cfg genv drop s { s with workers := .done ::ₘ rest }
  /-- Lines 159-160: the worker's `select` picks `ctx.Done()` and the
  worker returns, abandoning whatever is still buffered in `batchChan`. -/
  | wCancelExit (s : EState T) (rest : Multiset (WStatus T)) :
      drop = true → s.workers = .idle ::ₘ rest → s.cancelled = true →
      Step cfg genv drop s { s with workers := .done ::ₘ rest }
  /-- Lines 35-41: the orchestrator has seen `ctx.Done()`, `dataWG.Wait()`
  has returned, and it closes `dataChan`. -/
  | closeData (s : EState T) :
      s.phase = 0 → s.cancelled = true → s.gen = .done →
      Step cfg genv drop s { s with dataClosed := true, phase := 1 }
  /-- Lines 43-47: `batchWG.Wait()` has returned and the orchestrator
  closes `batchChan`. -/
  | closeBatch (s : EState T) :
      s.phase = 1 → s.bat = .done →
      Step cfg genv drop s { s with batchClosed := true, phase := 2 }
  /-- Lines 49-57: `publishWG.Wait()` has returned and the orchestrator
  calls `Close()` on the publisher and returns. -/
  | closeSink (s : EState T) :
      s.phase = 2 → (∀ w ∈ s.workers, w = .done) →
      Step cfg genv drop s { s with sinkClosed := true, phase := 3 }

/-- Reachability from the spawn state of `Start`. -/
def Reach {T : Type} (cfg : Config) (genv : Nat → SensorData T)
    (drop : Bool) (s : EState T) : Prop :=
  Relation.ReflTransGen (Step cfg genv drop) (initState cfg) s

/-- The envelopes currently inside `PublishBatch` calls. -/
def inflight {T : Type} (ws : Multiset (WStatus T)) : Multiset (SensorData T) :=
  ws.bind fun w => match w with
  | .publishing b _ => (b : Multiset (SensorData T))
  | _ => 0

/-- The batch a single worker holds (empty unless it is publishing). -/
def wbatch {T : Type} : WStatus T → List (SensorData T)
  | .publishing b _ => b
  | _ => []

/-- Lines 52-57 of `Start`: the value `Start` returns once the workers
have been joined, as a function of the outcome of `publisher.Close()`
(`none` = Close succeeded).  No other error reaches the return value. -/
def startResult (closeErr : Option String) : Option String :=
  match closeErr with
  | some e => some ("error closing publisher: " ++ e)
  | none => none

/-- A batch of legal size: non-empty and at most `BatchSize` long. -/
def batchOK {T : Type} (cfg : Config) (b : List (SensorData T)) : Prop :=
  1 ≤ b.length ∧ (b.length : Int) ≤ cfg.BatchSize

/-- Left inverse of `Nat.digitChar` on decimal digits. -/
def digitVal (c : Char) : ℕ :=
  if c = '0' then 0 else if c = '1' then 1 else if c = '2' then 2
  else if c = '3' then 3 else if c = '4' then 4 else if c = '5' then 5
  else if c = '6' then 6 else if c = '7' then 7 else if c = '8' then 8 else 9

/-! ## Concrete runs used to analyse the cancellation behaviour

`cxCfg` is a configuration with batch size 3, a batch timeout far longer
than the run (1s, effectively disabled) and one worker; `cxGen` the
corresponding envelope stream.  The `cxS*` states form a run in which
one envelope is enqueued and then cancellation arrives; the `dS*`
states form a run in which exactly seven envelopes are enqueued before
cancellation.  In both, after cancellation the batcher and the worker
take their `ctx.Done()` branches, which the `Step` relation permits. -/

def cxCfg : Config := ⟨100000000, 3, 1000000000, 1⟩

def cxGen : Nat → SensorData Unit := fun k => ⟨sensorID k, 0, (), .OK⟩

def cxS1 : EState Unit :=
  { initState cxCfg with dataQ := [cxGen 0], log := [cxGen 0], counter := 1 }

def cxS2 : EState Unit := { cxS1 with cancelled := true }

def cxS3 : EState Unit := { cxS2 with gen := .done }

def cxS4 : EState Unit := { cxS3 with bat := .done }

def cxS5 : EState Unit := { cxS4 with dataClosed := true, phase := 1 }

def cxS6 : EState Unit := { cxS5 with batchClosed := true, phase := 2 }

def cxS7 : EState Unit := { cxS6 with workers := {WStatus.done} }

def cxS8 : EState Unit := { cxS7 with sinkClosed := true, phase := 3 }

def dS1 : EState Unit :=
  { initState cxCfg with dataQ := [cxGen 0], log := [cxGen 0], counter := 1 }

def dS2 : EState Unit :=
  { dS1 with dataQ := [cxGen 0, cxGen 1], log := [cxGen 0, cxGen 1], counter := 2 }

def dS3 : EState Unit :=
  { dS2 with dataQ := [cxGen 0, cxGen 1, cxGen 2],
             log := [cxGen 0, cxGen 1, cxGen 2], counter := 3 }

def dS4 : EState Unit := { dS3 with dataQ := [cxGen 1, cxGen 2], cur := [cxGen 0] }

def dS5 : EState Unit := { dS4 with dataQ := [cxGen 2], cur := [cxGen 0, cxGen 1] }

def dS6 : EState Unit :=
  { dS5 with dataQ := [], cur := [], batchQ := [[cxGen 0, cxGen 1, cxGen 2]] }

def dS7 : EState Unit :=
  { dS6 with workers := {WStatus.publishing [cxGen 0, cxGen 1, cxGen 2] true},
             batchQ := [] }

def dS8 : EState Unit :=
  { dS7 with workers := {WStatus.idle}, delivered := [[cxGen 0, cxGen 1, cxGen 2]] }

def dS9 : EState Unit :=
  { dS8 with dataQ := [cxGen 3], log := dS8.log ++ [cxGen 3], counter := 4 }

def dS10 : EState Unit :=
  { dS9 with dataQ := [cxGen 3, cxGen 4], log := dS9.log ++ [cxGen 4], counter := 5 }

def dS11 : EState Unit :=
  { dS10 with dataQ := [cxGen 3, cxGen 4, cxGen 5],
              log := dS10.log ++ [cxGen 5], counter := 6 }

def dS12 : EState Unit := { dS11 with dataQ := [cxGen 4, cxGen 5], cur := [cxGen 3] }

def dS13 : EState Unit := { dS12 with dataQ := [cxGen 5], cur := [cxGen 3, cxGen 4] }

def dS14 : EState Unit :=
  { dS13 with dataQ := [], cur := [], batchQ := [[cxGen 3, cxGen 4, cxGen 5]] }

def dS15 : EState Unit :=
  { dS14 with workers := {WStatus.publishing [cxGen 3, cxGen 4, cxGen 5] true},
              batchQ := [] }

def dS16 : EState Unit :=
  { dS15 with workers := {WStatus.idle},
              delivered := [[cxGen 0, cxGen 1, cxGen 2], [cxGen 3, cxGen 4, cxGen 5]] }

def dS17 : EState Unit :=
  { dS16 with dataQ := [cxGen 6], log := dS16.log ++ [cxGen 6], counter := 7 }

def dS18 : EState Unit := { dS17 with dataQ := [], cur := [cxGen 6] }

def dS19 : EState Unit := { dS18 with cancelled := true }

def dS20 : EState Unit := { dS19 with gen := .done }

def dS21 : EState Unit := { dS20 with bat := .done }

def dS22 : EState Unit := { dS21 with dataClosed := true, phase := 1 }

def dS23 : EState Unit := { dS22 with batchClosed := true, phase := 2 }

def dS24 : EState Unit := { dS23 with workers := {WStatus.done} }

def dS25 : EState Unit := { dS24 with sinkClosed := true, phase := 3 }

/-- A model of `time.ParseDuration` that accepts exactly the string
`"100ms"` (100 000 000 ns), enough to exercise `ToEngineConfig`. -/
def cxParse : String → Option Int :=
  fun str => if str = "100ms" then some 100000000 else none

/-- A config file whose durations parse but whose `batch_size` and
`max_workers` are 0 — invalid per the specification. -/
def cxCfgFile : EngineConfig := ⟨"100ms", 0, "100ms", 0⟩

/-! A drain-only (`drop = false`) run of the same configuration in
which cancellation arrives before any envelope is produced and every
stage exits through its channel-close path. -/

def eS1 : EState Unit := { initState cxCfg with cancelled := true }

def eS2 : EState Unit := { eS1 with gen := .done }

def eS3 : EState Unit := { eS2 with dataClosed := true, phase := 1 }

def eS4 : EState Unit := { eS3 with bat := .done }

def eS5 : EState Unit := { eS4 with batchClosed := true, phase := 2 }

def eS6 : EState Unit := { eS5 with workers := {WStatus.done} }

def eS7 : EState Unit := { eS6 with sinkClosed := true, phase := 3 }

/-- A state whose single worker is inside a failing `PublishBatch`
call. -/
def wS : EState Unit :=
  { initState cxCfg with workers := WStatus.publishing [cxGen 0] false ::ₘ 0 }

/-- The envelope stream of a generator with concrete seeder, clock,
quality draws and sensor function. -/
def mGen : Nat → SensorData ℚ :=
  mkSensorData (fun _ => 0) (fun _ => 0) (fun _ => 1/2) (fun q _ => q)

def mS1 : EState ℚ :=
  { initState cxCfg with dataQ := [mGen 0], log := [mGen 0], counter := 1 }

def mS2 : EState ℚ :=
  { mS1 with dataQ := [mGen 0, mGen 1], log := [mGen 0, mGen 1], counter := 2 }

/-! ## Basic reachability invariants -/

/-- The two channel buffers never exceed their literal capacities 100
and 10 from lines 14-15, whatever the configuration. -/
theorem reach_caps {T : Type} {cfg : Config} {genv : Nat → SensorData T}
    {drop : Bool} {s : EState T} (h : Reach cfg genv drop s) :
    s.dataQ.length ≤ 100 ∧ s.batchQ.length ≤ 10 := by
  induction h with
  | refl => simp [initState]
  | tail h1 h2 ih => cases h2 <;> simp_all <;> omega

/-- The number of worker goroutines is constant. -/
theorem reach_card {T : Type} {cfg : Config} {genv : Nat → SensorData T}
    {drop : Bool} {s : EState T} (h : Reach cfg genv drop s) :
    Multiset.card s.workers = cfg.MaxWorkers.toNat := by
  induction h with
  | refl => simp [initState]
  | tail h1 h2 ih => cases h2 <;> simp_all

/-- The ghost history: the envelopes successfully enqueued are exactly
`genv 0, genv 1, …` in counter order. -/
theorem reach_log {T : Type} {cfg : Config} {genv : Nat → SensorData T}
    {drop : Bool} {s : EState T} (h : Reach cfg genv drop s) :
    s.log = (List.range s.counter).map genv := by
  induction h with
  | refl => simp [initState]
  | tail h1 h2 ih => cases h2 <;> simp_all [List.range_succ]

/-- Orchestrator/phase invariant: the sink is closed exactly in phase 3,
and phase 3 is entered only with every worker done. -/
theorem reach_phase {T : Type} {cfg : Config} {genv : Nat → SensorData T}
    {drop : Bool} {s : EState T} (h : Reach cfg genv drop s) :
    (s.sinkClosed = true ↔ s.phase = 3) ∧
    (s.phase = 3 → ∀ w ∈ s.workers, w = .done) ∧ s.phase ≤ 3 := by
  induction h with
  | refl => simp [initState]
  | tail h1 h2 ih =>
    obtain ⟨ih1, ih2, ih3⟩ := ih
    cases h2 with
    | cancel hc => exact ⟨ih1, ih2, ih3⟩
    | genSend hg hq => exact ⟨ih1, ih2, ih3⟩
    | genExit hg hc => exact ⟨ih1, ih2, ih3⟩
    | batRecv e rest hb hq hlen => exact ⟨ih1, ih2, ih3⟩
    | batRecvFlush e rest hb hq hlen hroom => exact ⟨ih1, ih2, ih3⟩
    | batRecvFlushDrop e rest hd hb hq hlen hc => exact ⟨ih1, ih2, ih3⟩
    | batTimerFlush hb hcur hroom => exact ⟨ih1, ih2, ih3⟩
    | batTimerFlushDrop hd hb hcur hc => exact ⟨ih1, ih2, ih3⟩
    | batClosedExit hb hdc hq hcur => exact ⟨ih1, ih2, ih3⟩
    | batClosedFlush hb hdc hq hcur hroom => exact ⟨ih1, ih2, ih3⟩
    | batClosedFlushDrop hd hb hdc hq hcur hc => exact ⟨ih1, ih2, ih3⟩
    | batCancelFlush hd hb hc hcur hroom => exact ⟨ih1, ih2, ih3⟩
    | batCancelDrop hd hb hc => exact ⟨ih1, ih2, ih3⟩
    | wRecv b bq rest ok hw hq =>
      refine ⟨ih1, fun h3 => ?_, ih3⟩
      have hall := ih2 h3
      rw [hw] at hall
      exact absurd (hall _ (Multiset.mem_cons_self _ _)) (by simp)
    | wPubDone b ok rest hw =>
      refine ⟨ih1, fun h3 => ?_, ih3⟩
      have hall := ih2 h3
      rw [hw] at hall
      exact absurd (hall _ (Multiset.mem_cons_self _ _)) (by simp)
    | wClosedExit rest hw hbc hq =>
      refine ⟨ih1, fun h3 => ?_, ih3⟩
      have hall := ih2 h3
      rw [hw] at hall
      exact absurd (hall _ (Multiset.mem_cons_self _ _)) (by simp)
    | wCancelExit rest hd hw hc =>
      refine ⟨ih1, fun h3 => ?_, ih3⟩
      have hall := ih2 h3
      rw [hw] at hall
      exact absurd (hall _ (Multiset.mem_cons_self _ _)) (by simp)
    | closeData hp hc hg =>
      exact ⟨⟨fun hx => absurd (ih1.mp hx) (by omega), fun hx => absurd hx (by simp)⟩,
        fun h3 => absurd h3 (by simp), by norm_num⟩
    | closeBatch hp hb =>
      exact ⟨⟨fun hx => absurd (ih1.mp hx) (by omega), fun hx => absurd hx (by simp)⟩,
        fun h3 => absurd h3 (by simp), by norm_num⟩
    | closeSink hp hall => exact ⟨by simp, fun _ => hall, by simp⟩

/-- Size invariant: while the batcher runs its current batch is strictly
below `BatchSize`, and every batch ever sent into `batchChan` — whether
still queued, inside a `PublishBatch` call, or delivered — is non-empty
and at most `BatchSize` long.  Requires `BatchSize ≥ 1`. -/
theorem reach_batchOK {T : Type} {cfg : Config} {genv : Nat → SensorData T}
    {drop : Bool} {s : EState T} (hbs : 1 ≤ cfg.BatchSize)
    (h : Reach cfg genv drop s) :
    (s.bat = .running → (s.cur.length : Int) < cfg.BatchSize) ∧
    (∀ b ∈ s.batchQ, batchOK cfg b) ∧
    (∀ b ok, WStatus.publishing b ok ∈ s.workers → batchOK cfg b) ∧
    (∀ b ∈ s.delivered, batchOK cfg b) := by
  induction h with
  | refl =>
    refine ⟨fun _ => ?_, ?_, ?_, ?_⟩
    · simp only [initState, List.length_nil, Nat.cast_zero]
      omega
    · simp [initState]
    · intro b ok hmem
      simp only [initState] at hmem
      exact absurd (Multiset.eq_of_mem_replicate hmem) (by simp)
    · simp [initState]
  | tail h1 h2 ih =>
    obtain ⟨ihc, ihq, ihw, ihd⟩ := ih
    cases h2 with
    | cancel hc => exact ⟨ihc, ihq, ihw, ihd⟩
    | genSend hg hq => exact ⟨ihc, ihq, ihw, ihd⟩
    | genExit hg hc => exact ⟨ihc, ihq, ihw, ihd⟩
    | batRecv e rest hb hq hlen =>
      refine ⟨fun _ => ?_, ihq, ihw, ihd⟩
      simp only [List.length_append, List.length_singleton]
      push_cast
      omega
    | batRecvFlush e rest hb hq hlen hroom =>
      have hcur := ihc hb
      refine ⟨fun _ => by simp; omega, fun b hmem => ?_, ihw, ihd⟩
      simp only [List.mem_append, List.mem_singleton] at hmem
      rcases hmem with hmem | rfl
      · exact ihq _ hmem
      · refine ⟨by simp, ?_⟩
        simp only [List.length_append, List.length_singleton]
        push_cast
        omega
    | batRecvFlushDrop e rest hd hb hq hlen hc =>
      exact ⟨fun hx => absurd hx (by simp), ihq, ihw, ihd⟩
    | batTimerFlush hb hcur hroom =>
      have hlt := ihc hb
      refine ⟨fun _ => by simp; omega, fun b hmem => ?_, ihw, ihd⟩
      simp only [List.mem_append, List.mem_singleton] at hmem
      rcases hmem with hmem | rfl
      · exact ihq _ hmem
      · exact ⟨List.length_pos.mpr hcur, by omega⟩
    | batTimerFlushDrop hd hb hcur hc =>
      exact ⟨fun hx => absurd hx (by simp), ihq, ihw, ihd⟩
    | batClosedExit hb hdc hq hcur =>
      exact ⟨fun hx => absurd hx (by simp), ihq, ihw, ihd⟩
    | batClosedFlush hb hdc hq hcur hroom =>
      have hlt := ihc hb
      refine ⟨fun hx => absurd hx (by simp), fun b hmem => ?_, ihw, ihd⟩
      simp only [List.mem_append, List.mem_singleton] at hmem
      rcases hmem with hmem | rfl
      · exact ihq _ hmem
      · exact ⟨List.length_pos.mpr hcur, by omega⟩
    | batClosedFlushDrop hd hb hdc hq hcur hc =>
      exact ⟨fun hx => absurd hx (by simp), ihq, ihw, ihd⟩
    | batCancelFlush hd hb hc hcur hroom =>
      have hlt := ihc hb
      refine ⟨fun hx => absurd hx (by simp), fun b hmem => ?_, ihw, ihd⟩
      simp only [List.mem_append, List.mem_singleton] at hmem
      rcases hmem with hmem | rfl
      · exact ihq _ hmem
      · exact ⟨List.length_pos.mpr hcur, by omega⟩
    | batCancelDrop hd hb hc =>
      exact ⟨fun hx => absurd hx (by simp), ihq, ihw, ihd⟩
    | wRecv b bq rest ok hw hq =>
      refine ⟨ihc, fun b' hmem => ihq _ (by rw [hq]; exact List.mem_cons_of_mem _ hmem),
        fun b' ok' hmem => ?_, ihd⟩
      rcases Multiset.mem_cons.mp hmem with heq | hmem'
      · cases heq
        exact ihq _ (by rw [hq]; exact List.mem_cons_self _ _)
      · exact ihw _ _ (by rw [hw]; exact Multiset.mem_cons_of_mem hmem')
    | wPubDone b ok rest hw =>
      refine ⟨ihc, ihq, fun b' ok' hmem => ?_, fun b' hmem => ?_⟩
      · rcases Multiset.mem_cons.mp hmem with heq | hmem'
        · cases heq
        · exact ihw _ _ (by rw [hw]; exact Multiset.mem_cons_of_mem hmem')
      · simp only [List.mem_append, List.mem_singleton] at hmem
        rcases hmem with hmem | rfl
        · exact ihd _ hmem
        · exact ihw _ ok (by rw [hw]; exact Multiset.mem_cons_self _ _)
    | wClosedExit rest hw hbc hq =>
      refine ⟨ihc, ihq, fun b' ok' hmem => ?_, ihd⟩
      rcases Multiset.mem_cons.mp hmem with heq | hmem'
      · cases heq
      · exact ihw _ _ (by rw [hw]; exact Multiset.mem_cons_of_mem hmem')
    | wCancelExit rest hd hw hc =>
      refine ⟨ihc, ihq, fun b' ok' hmem => ?_, ihd⟩
      rcases Multiset.mem_cons.mp hmem with heq | hmem'
      · cases heq
      · exact ihw _ _ (by rw [hw]; exact Multiset.mem_cons_of_mem hmem')
    | closeData hp hc hg => exact ⟨ihc, ihq, ihw, ihd⟩
    | closeBatch hp hb => exact ⟨ihc, ihq, ihw, ihd⟩
    | closeSink hp hall => exact ⟨ihc, ihq, ihw, ihd⟩

/-! ## Invariants of drain-only runs (`drop = false`)

In a run in which no goroutine takes one of its `ctx.Done()` early-exit
branches, each stage terminates only after fully draining its input
channel. -/

/-- Structural shutdown invariant for drain-only runs: `dataChan` is
closed only after the generator exits; the batcher exits only after
`dataChan` is closed and drained and its batch flushed; `batchChan` is
closed only after the batcher exits; a worker exits only after
`batchChan` is closed; and once `batchChan` is closed and every worker
has exited, `batchChan` is empty. -/
theorem reach_drain {T : Type} {cfg : Config} {genv : Nat → SensorData T}
    {s : EState T} (hW : 1 ≤ cfg.MaxWorkers)
    (h : Reach cfg genv false s) :
    (s.dataClosed = true → s.gen = .done) ∧
    (s.bat = .done → s.dataClosed = true ∧ s.dataQ = [] ∧ s.cur = []) ∧
    (s.batchClosed = true → s.bat = .done) ∧
    ((∃ w ∈ s.workers, w = WStatus.done) → s.batchClosed = true) ∧
    (s.batchClosed = true → (∀ w ∈ s.workers, w = .done) → s.batchQ = []) := by
  induction h with
  | refl =>
    refine ⟨by simp [initState], by simp [initState], by simp [initState], ?_, ?_⟩
    · rintro ⟨w, hmem, rfl⟩
      simp only [initState] at hmem
      exact absurd (Multiset.eq_of_mem_replicate hmem) (by simp)
    · intro hbc
      simp only [initState] at hbc
      cases hbc
  | tail h1 h2 ih =>
    obtain ⟨ih1, ih2, ih3, ih4, ih5⟩ := ih
    cases h2 with
    | cancel hc => exact ⟨ih1, ih2, ih3, ih4, ih5⟩
    | genSend hg hq =>
      refine ⟨ih1, fun hx => ?_, ih3, ih4, ih5⟩
      have := ih1 (ih2 hx).1
      rw [hg] at this
      cases this
    | genExit hg hc => exact ⟨fun _ => rfl, ih2, ih3, ih4, ih5⟩
    | batRecv e rest hb hq hlen =>
      refine ⟨ih1, fun hx => ?_, ih3, ih4, ih5⟩
      rw [hb] at hx
      cases hx
    | batRecvFlush e rest hb hq hlen hroom =>
      refine ⟨ih1, fun hx => ?_, fun hx => ?_, ih4, fun hx hall => ?_⟩
      · rw [hb] at hx; cases hx
      · have := ih3 hx; rw [hb] at this; cases this
      · have := ih3 hx; rw [hb] at this; cases this
    | batRecvFlushDrop e rest hd hb hq hlen hc => cases hd
    | batTimerFlush hb hcur hroom =>
      refine ⟨ih1, fun hx => ?_, fun hx => ?_, ih4, fun hx hall => ?_⟩
      · rw [hb] at hx; cases hx
      · have := ih3 hx; rw [hb] at this; cases this
      · have := ih3 hx; rw [hb] at this; cases this
    | batTimerFlushDrop hd hb hcur hc => cases hd
    | batClosedExit hb hdc hq hcur =>
      exact ⟨ih1, fun _ => ⟨hdc, hq, hcur⟩, fun _ => rfl, ih4, ih5⟩
    | batClosedFlush hb hdc hq hcur hroom =>
      refine ⟨ih1, fun _ => ⟨hdc, hq, rfl⟩, fun _ => rfl, ih4, fun hx hall => ?_⟩
      have := ih3 hx; rw [hb] at this; cases this
    | batClosedFlushDrop hd hb hdc hq hcur hc => cases hd
    | batCancelFlush hd hb hc hcur hroom => cases hd
    | batCancelDrop hd hb hc => cases hd
    | wRecv b bq rest ok hw hq =>
      refine ⟨ih1, ih2, ih3, fun hx => ?_, fun hx hall => ?_⟩
      · obtain ⟨w, hmem, rfl⟩ := hx
        rcases Multiset.mem_cons.mp hmem with heq | hmem'
        · cases heq
        · exact ih4 ⟨_, by rw [hw]; exact Multiset.mem_cons_of_mem hmem', rfl⟩
      · exact absurd (hall _ (Multiset.mem_cons_self _ _)) (by simp)
    | wPubDone b ok rest hw =>
      refine ⟨ih1, ih2, ih3, fun hx => ?_, fun hx hall => ?_⟩
      · obtain ⟨w, hmem, rfl⟩ := hx
        rcases Multiset.mem_cons.mp hmem with heq | hmem'
        · cases heq
        · exact ih4 ⟨_, by rw [hw]; exact Multiset.mem_cons_of_mem hmem', rfl⟩
      · exact absurd (hall _ (Multiset.mem_cons_self _ _)) (by simp)
    | wClosedExit rest hw hbc hq =>
      exact ⟨ih1, ih2, ih3, fun _ => hbc, fun _ _ => hq⟩
    | wCancelExit rest hd hw hc => cases hd
    | closeData hp hc hg =>
      exact ⟨fun _ => hg, fun hx => ⟨rfl, (ih2 hx).2.1, (ih2 hx).2.2⟩, ih3, ih4, ih5⟩
    | closeBatch hp hb =>
      refine ⟨ih1, ih2, fun _ => hb, fun _ => rfl, fun _ hall => ?_⟩
      have hcard := reach_card h1
      have hne : (‹EState T›.workers) ≠ 0 := by
        intro h0
        rw [h0] at hcard
        simp at hcard
        omega
      obtain ⟨w0, hw0⟩ := Multiset.exists_mem_of_ne_zero hne
      exact ih5 (ih4 ⟨w0, hw0, hall _ hw0⟩) hall
    | closeSink hp hall => exact ⟨ih1, ih2, ih3, ih4, ih5⟩

@[simp]
theorem inflight_idle_cons {T : Type} (rest : Multiset (WStatus T)) :
    inflight (.idle ::ₘ rest) = inflight rest := by
  simp [inflight, Multiset.cons_bind]

@[simp]
theorem inflight_done_cons {T : Type} (rest : Multiset (WStatus T)) :
    inflight (.done ::ₘ rest) = inflight rest := by
  simp [inflight, Multiset.cons_bind]

@[simp]
theorem inflight_pub_cons {T : Type} (b : List (SensorData T)) (ok : Bool)
    (rest : Multiset (WStatus T)) :
    inflight (.publishing b ok ::ₘ rest) = (b : Multiset (SensorData T)) + inflight rest := by
  simp [inflight, Multiset.cons_bind]

@[simp]
theorem inflight_replicate_idle {T : Type} (n : Nat) :
    inflight (Multiset.replicate n (.idle : WStatus T)) = 0 := by
  induction n with
  | zero => simp [inflight]
  | succ n ih => rw [Multiset.replicate_succ, inflight_idle_cons, ih]

/-- Conservation for drain-only runs: every envelope ever enqueued is,
at every moment, in exactly one place — still buffered in `dataChan`,
in the batcher's current batch, in a batch buffered in `batchChan`, in
a batch inside a `PublishBatch` call, or in a delivered batch.  Nothing
is lost and nothing is duplicated. -/
theorem reach_conserve {T : Type} {cfg : Config} {genv : Nat → SensorData T}
    {s : EState T} (h : Reach cfg genv false s) :
    (s.log : Multiset (SensorData T)) =
      (s.delivered.flatten : List (SensorData T)) + inflight s.workers +
      (s.batchQ.flatten : List (SensorData T)) + (s.cur : Multiset (SensorData T)) +
      (s.dataQ : Multiset (SensorData T)) := by
  induction h with
  | refl => simp [initState]
  | tail h1 h2 ih =>
    cases h2 with
    | cancel hc => exact ih
    | genSend hg hq =>
      simp only [← Multiset.coe_add]
      rw [ih]; abel
    | genExit hg hc => exact ih
    | batRecv e rest hb hq hlen =>
      rw [hq] at ih
      simp only [← Multiset.cons_coe, ← Multiset.singleton_add] at ih
      simp only [← Multiset.coe_add, Multiset.coe_singleton]
      rw [ih]; abel
    | batRecvFlush e rest hb hq hlen hroom =>
      rw [hq] at ih
      simp only [← Multiset.cons_coe, ← Multiset.singleton_add] at ih
      simp only [List.flatten_append, List.flatten_cons, List.flatten_nil,
        List.append_nil, ← Multiset.coe_add, Multiset.coe_singleton, Multiset.coe_nil]
      rw [ih]; abel
    | batRecvFlushDrop e rest hd hb hq hlen hc => cases hd
    | batTimerFlush hb hcur hroom =>
      simp only [List.flatten_append, List.flatten_cons, List.flatten_nil,
        List.append_nil, ← Multiset.coe_add, Multiset.coe_nil]
      rw [ih]; abel
    | batTimerFlushDrop hd hb hcur hc => cases hd
    | batClosedExit hb hdc hq hcur => exact ih
    | batClosedFlush hb hdc hq hcur hroom =>
      simp only [List.flatten_append, List.flatten_cons, List.flatten_nil,
        List.append_nil, ← Multiset.coe_add, Multiset.coe_nil]
      rw [ih]; abel
    | batClosedFlushDrop hd hb hdc hq hcur hc => cases hd
    | batCancelFlush hd hb hc hcur hroom => cases hd
    | batCancelDrop hd hb hc => cases hd
    | wRecv b bq rest ok hw hq =>
      rw [hw, hq] at ih
      simp only [inflight_idle_cons, List.flatten_cons, ← Multiset.coe_add] at ih
      simp only [inflight_pub_cons, ← Multiset.coe_add]
      rw [ih]; abel
    | wPubDone b ok rest hw =>
      rw [hw] at ih
      simp only [inflight_pub_cons] at ih
      simp only [inflight_idle_cons, List.flatten_append, List.flatten_cons,
        List.flatten_nil, List.append_nil, ← Multiset.coe_add]
      rw [ih]; abel
    | wClosedExit rest hw hbc hq =>
      rw [hw] at ih
      simp only [inflight_idle_cons] at ih
      simp only [inflight_done_cons]
      exact ih
    | wCancelExit rest hd hw hc => cases hd
    | closeData hp hc hg => exact ih
    | closeBatch hp hb => exact ih
    | closeSink hp hall => exact ih

/-- Order-preserving conservation for drain-only runs with exactly one
worker: reading the pipeline from sink back to generator, the
concatenation `delivered ++ in-flight ++ batchQ ++ current ++ dataQ`
is, at every moment, exactly the enqueue history in order.  FIFO is
preserved end-to-end. -/
theorem reach_order {T : Type} {cfg : Config} {genv : Nat → SensorData T}
    {s : EState T} (hW : cfg.MaxWorkers = 1) (h : Reach cfg genv false s) :
    ∃ w, s.workers = {w} ∧
      s.delivered.flatten ++ wbatch w ++ s.batchQ.flatten ++ s.cur ++ s.dataQ
        = s.log := by
  induction h with
  | refl =>
    refine ⟨.idle, ?_, by simp [initState, wbatch]⟩
    simp [initState, hW, Multiset.replicate_one]
  | tail h1 h2 ih =>
    obtain ⟨w, hws, heq⟩ := ih
    cases h2 with
    | cancel hc => exact ⟨w, hws, heq⟩
    | genSend hg hq =>
      refine ⟨w, hws, ?_⟩
      rw [← heq]
      simp [List.append_assoc]
    | genExit hg hc => exact ⟨w, hws, heq⟩
    | batRecv e rest hb hq hlen =>
      refine ⟨w, hws, ?_⟩
      rw [← heq, hq]
      simp [List.append_assoc]
    | batRecvFlush e rest hb hq hlen hroom =>
      refine ⟨w, hws, ?_⟩
      rw [← heq, hq]
      simp [List.append_assoc, List.flatten_append]
    | batRecvFlushDrop e rest hd hb hq hlen hc => cases hd
    | batTimerFlush hb hcur hroom =>
      refine ⟨w, hws, ?_⟩
      rw [← heq]
      simp [List.append_assoc, List.flatten_append]
    | batTimerFlushDrop hd hb hcur hc => cases hd
    | batClosedExit hb hdc hq hcur => exact ⟨w, hws, heq⟩
    | batClosedFlush hb hdc hq hcur hroom =>
      refine ⟨w, hws, ?_⟩
      rw [← heq]
      simp [List.append_assoc, List.flatten_append]
    | batClosedFlushDrop hd hb hdc hq hcur hc => cases hd
    | batCancelFlush hd hb hc hcur hroom => cases hd
    | batCancelDrop hd hb hc => cases hd
    | wRecv b bq rest ok hw hq =>
      have h2 := hw
      rw [hws] at h2
      obtain ⟨rfl, rfl⟩ := (Multiset.singleton_eq_cons_iff _).mp h2
      refine ⟨.publishing b ok, by simp, ?_⟩
      rw [← heq, hq]
      simp [wbatch, List.append_assoc]
    | wPubDone b ok rest hw =>
      have h2 := hw
      rw [hws] at h2
      obtain ⟨rfl, rfl⟩ := (Multiset.singleton_eq_cons_iff _).mp h2
      refine ⟨.idle, by simp, ?_⟩
      rw [← heq]
      simp [wbatch, List.append_assoc, List.flatten_append]
    | wClosedExit rest hw hbc hq =>
      have h2 := hw
      rw [hws] at h2
      obtain ⟨rfl, rfl⟩ := (Multiset.singleton_eq_cons_iff _).mp h2
      refine ⟨.done, by simp, ?_⟩
      rw [← heq]
      simp [wbatch]
    | wCancelExit rest hd hw hc => cases hd
    | closeData hp hc hg => exact ⟨w, hws, heq⟩
    | closeBatch hp hb => exact ⟨w, hws, heq⟩
    | closeSink hp hall => exact ⟨w, hws, heq⟩

theorem inflight_all_done {T : Type} {ws : Multiset (WStatus T)}
    (hall : ∀ w ∈ ws, w = .done) : inflight ws = 0 := by
  induction ws using Multiset.induction with
  | empty => simp [inflight]
  | cons a s ih =>
    have ha := hall a (Multiset.mem_cons_self _ _)
    subst ha
    rw [inflight_done_cons]
    exact ih fun w hw => hall w (Multiset.mem_cons_of_mem hw)

/-- End of a drain-only run (any worker count ≥ 1): when `Start` has
closed the sink, the multiset of envelopes inside delivered batches is
exactly the multiset of envelopes ever enqueued. -/
theorem reach_final_multiset {T : Type} {cfg : Config}
    {genv : Nat → SensorData T} {s : EState T} (hW : 1 ≤ cfg.MaxWorkers)
    (h : Reach cfg genv false s) (hp : s.phase = 3) :
    (s.delivered.flatten : Multiset (SensorData T)) = (s.log : Multiset (SensorData T)) := by
  have hcons := reach_conserve h
  have hall := (reach_phase h).2.1 hp
  obtain ⟨_, hd2, hd3, hd4, hd5⟩ := reach_drain hW h
  have hcard := reach_card h
  have hne : s.workers ≠ 0 := by
    intro h0
    rw [h0] at hcard
    simp at hcard
    omega
  obtain ⟨w0, hw0⟩ := Multiset.exists_mem_of_ne_zero hne
  have hbc : s.batchClosed = true := hd4 ⟨w0, hw0, hall _ hw0⟩
  have hbq : s.batchQ = [] := hd5 hbc hall
  obtain ⟨_, hdq, hcur⟩ := hd2 (hd3 hbc)
  rw [hbq, hdq, hcur, inflight_all_done hall] at hcons
  simp only [List.flatten_nil, Multiset.coe_nil] at hcons
  rw [hcons]
  abel

/-- End of a drain-only run with exactly one worker: the delivered
batches, concatenated in delivery order, are exactly the enqueue
history in order. -/
theorem reach_final_order {T : Type} {cfg : Config}
    {genv : Nat → SensorData T} {s : EState T} (hW : cfg.MaxWorkers = 1)
    (h : Reach cfg genv false s) (hp : s.phase = 3) :
    s.delivered.flatten = s.log := by
  obtain ⟨w, hws, heq⟩ := reach_order hW h
  have hall := (reach_phase h).2.1 hp
  have hwdone : w = .done := hall w (by rw [hws]; exact Multiset.mem_singleton_self w)
  obtain ⟨_, hd2, hd3, hd4, hd5⟩ := reach_drain (by omega) h
  have hbc : s.batchClosed = true :=
    hd4 ⟨w, by rw [hws]; exact Multiset.mem_singleton_self w, hwdone⟩
  have hbq : s.batchQ = [] := hd5 hbc hall
  obtain ⟨_, hdq, hcur⟩ := hd2 (hd3 hbc)
  rw [hwdone] at heq
  simp only [wbatch, hbq, hdq, hcur, List.append_nil, List.flatten_nil] at heq
  exact heq

/-! ## FIFO through the batcher (functional model) -/

theorem processRun_flatten_aux {α : Type} (batchSize : Int) :
    ∀ (evs : List (BEvent α)) (st : BatcherState α),
      (evs.foldl (processEvent batchSize) st).sent.flatten ++
          (evs.foldl (processEvent batchSize) st).batch =
        st.sent.flatten ++ st.batch ++ eventData evs := by
  intro evs
  induction evs with
  | nil => intro st; simp [eventData]
  | cons ev evs ih =>
    intro st
    rw [List.foldl_cons, ih]
    cases ev with
    | data e =>
      by_cases hfull : batchSize ≤ (st.batch.length : Int) + 1
      · simp [processEvent, hfull, eventData, List.flatten_append, List.append_assoc]
      · simp [processEvent, hfull, eventData, List.append_assoc]
    | timer =>
      by_cases hempty : st.batch.isEmpty
      · have hb : st.batch = [] := by simpa [List.isEmpty_iff] using hempty
        simp [processEvent, hempty, eventData, hb]
      · simp [processEvent, hempty, eventData, List.flatten_append, List.append_assoc]

/-- Concatenating everything the batcher emits recovers the envelope
arrival sequence exactly: FIFO through the batcher, no loss, no
duplication, for any batch size and any interleaving of ticker fires. -/
theorem batcherOutput_flatten {α : Type} (batchSize : Int) (evs : List (BEvent α)) :
    (batcherOutput batchSize evs).flatten = eventData evs := by
  have haux := processRun_flatten_aux batchSize evs ⟨[], []⟩
  simp only [List.flatten_nil, List.nil_append] at haux
  unfold batcherOutput processBatchesRun
  by_cases hempty : (evs.foldl (processEvent batchSize) ⟨[], []⟩).batch.isEmpty
  · have hb : (evs.foldl (processEvent batchSize) ⟨[], []⟩).batch = [] := by
      simpa [List.isEmpty_iff] using hempty
    rw [if_pos hempty, ← haux, hb, List.append_nil]
  · rw [if_neg hempty, List.flatten_append, List.flatten_cons, List.flatten_nil,
      List.append_nil]
    exact haux

/-! ## Injectivity of the printed identifier `sensor-<counter>` -/

theorem toDigitsCore_eq_digits (f : ℕ) :
    ∀ (n : ℕ) (ds : List Char), 1 ≤ n → n < f →
      Nat.toDigitsCore 10 f n ds =
        ((Nat.digits 10 n).map Nat.digitChar).reverse ++ ds := by
  induction f with
  | zero => intro n ds h1 h2; omega
  | succ f ih =>
    intro n ds h1 h2
    by_cases h10 : n / 10 = 0
    · rw [Nat.digits_def' (by norm_num : (1:ℕ) < 10) (by omega : 0 < n), h10]
      simp [Nat.toDigitsCore, h10]
    · rw [Nat.digits_def' (by norm_num : (1:ℕ) < 10) (by omega : 0 < n)]
      have hrec : Nat.toDigitsCore 10 (f + 1) n ds =
          Nat.toDigitsCore 10 f (n / 10) (Nat.digitChar (n % 10) :: ds) := by
        simp [Nat.toDigitsCore, h10]
      rw [hrec, ih (n / 10) (Nat.digitChar (n % 10) :: ds) (by omega) (by omega)]
      simp [List.append_assoc]

theorem repr_eq_digits (n : ℕ) (h : 1 ≤ n) :
    Nat.repr n = (((Nat.digits 10 n).map Nat.digitChar).reverse).asString := by
  show (Nat.toDigits 10 n).asString = _
  unfold Nat.toDigits
  rw [toDigitsCore_eq_digits (n + 1) n [] h (by omega)]
  simp

theorem digitVal_digitChar {d : ℕ} (h : d < 10) :
    digitVal (Nat.digitChar d) = d := by
  interval_cases d <;> decide

theorem map_digitChar_inj {l₁ l₂ : List ℕ} (h₁ : ∀ x ∈ l₁, x < 10)
    (h₂ : ∀ x ∈ l₂, x < 10)
    (heq : l₁.map Nat.digitChar = l₂.map Nat.digitChar) : l₁ = l₂ := by
  have hmap := congrArg (List.map digitVal) heq
  rw [List.map_map, List.map_map] at hmap
  have e₁ : l₁.map (digitVal ∘ Nat.digitChar) = l₁ := by
    have hco : ∀ x ∈ l₁, (digitVal ∘ Nat.digitChar) x = id x :=
      fun x hx => digitVal_digitChar (h₁ x hx)
    rw [List.map_congr_left hco, List.map_id]
  have e₂ : l₂.map (digitVal ∘ Nat.digitChar) = l₂ := by
    have hco : ∀ x ∈ l₂, (digitVal ∘ Nat.digitChar) x = id x :=
      fun x hx => digitVal_digitChar (h₂ x hx)
    rw [List.map_congr_left hco, List.map_id]
  rw [e₁, e₂] at hmap
  exact hmap

theorem repr_data_inj {m n : ℕ}
    (h : (Nat.repr m).data = (Nat.repr n).data) : m = n := by
  rcases Nat.eq_zero_or_pos m with hm | hm <;>
    rcases Nat.eq_zero_or_pos n with hn | hn
  · omega
  · exfalso
    subst hm
    rw [repr_eq_digits n hn] at h
    have h0 : (['0'] : List Char) = ((Nat.digits 10 n).map Nat.digitChar).reverse := h
    have h1 := congrArg List.reverse h0
    simp only [List.reverse_reverse] at h1
    have h2 : ([0] : List ℕ).map Nat.digitChar = (Nat.digits 10 n).map Nat.digitChar := by
      simpa using h1
    have h3 := map_digitChar_inj (by simp)
      (fun x hx => Nat.digits_lt_base (by norm_num) hx) h2
    have h4 := congrArg (Nat.ofDigits 10) h3
    rw [Nat.ofDigits_digits] at h4
    simp [Nat.ofDigits] at h4
    omega
  · exfalso
    subst hn
    rw [repr_eq_digits m hm] at h
    have h0 : ((Nat.digits 10 m).map Nat.digitChar).reverse = (['0'] : List Char) := h
    have h1 := congrArg List.reverse h0
    simp only [List.reverse_reverse] at h1
    have h2 : (Nat.digits 10 m).map Nat.digitChar = ([0] : List ℕ).map Nat.digitChar := by
      simpa using h1
    have h3 := map_digitChar_inj
      (fun x hx => Nat.digits_lt_base (by norm_num) hx) (by simp) h2
    have h4 := congrArg (Nat.ofDigits 10) h3
    rw [Nat.ofDigits_digits] at h4
    simp [Nat.ofDigits] at h4
    omega
  · rw [repr_eq_digits m hm, repr_eq_digits n hn] at h
    have h0 : ((Nat.digits 10 m).map Nat.digitChar).reverse =
        ((Nat.digits 10 n).map Nat.digitChar).reverse := h
    have h1 := congrArg List.reverse h0
    simp only [List.reverse_reverse] at h1
    have h3 := map_digitChar_inj
      (fun x hx => Nat.digits_lt_base (by norm_num) hx)
      (fun x hx => Nat.digits_lt_base (by norm_num) hx) h1
    have h4 := congrArg (Nat.ofDigits 10) h3
    rwa [Nat.ofDigits_digits, Nat.ofDigits_digits] at h4

/-- No two distinct counter values print to the same `sensor-<k>`
identifier. -/
theorem sensorID_injective : Function.Injective sensorID := by
  intro m n heq
  apply repr_data_inj
  have hd := congrArg String.data heq
  have hsplit : ∀ a b : String, (a ++ b).data = a.data ++ b.data := fun a b => rfl
  simp only [sensorID, hsplit] at hd
  exact List.append_cancel_left hd

/-! ## The concrete cancellation runs are genuine runs of the pipeline -/

theorem cx_reach_s1 : Reach cxCfg cxGen true cxS1 :=
  Relation.ReflTransGen.tail Relation.ReflTransGen.refl
    (Step.genSend (initState cxCfg) rfl (by decide))

theorem cx_s1_to_s8 : Relation.ReflTransGen (Step cxCfg cxGen true) cxS1 cxS8 :=
  Relation.ReflTransGen.tail
    (Relation.ReflTransGen.tail
      (Relation.ReflTransGen.tail
        (Relation.ReflTransGen.tail
          (Relation.ReflTransGen.tail
            (Relation.ReflTransGen.tail
              (Relation.ReflTransGen.tail Relation.ReflTransGen.refl
                (Step.cancel cxS1 rfl))
              (Step.genExit cxS2 rfl rfl))
            (Step.batCancelDrop cxS3 rfl rfl rfl))
          (Step.closeData cxS4 rfl rfl rfl))
        (Step.closeBatch cxS5 rfl rfl))
      (Step.wClosedExit cxS6 0 rfl rfl rfl))
    (Step.closeSink cxS7 rfl (fun _ hw => Multiset.mem_singleton.mp hw))

theorem d_reach_s18 : Reach cxCfg cxGen true dS18 := by
  have t1 : Step cxCfg cxGen true (initState cxCfg) dS1 :=
    Step.genSend (initState cxCfg) rfl (by decide)
  have t2 : Step cxCfg cxGen true dS1 dS2 := Step.genSend dS1 rfl (by decide)
  have t3 : Step cxCfg cxGen true dS2 dS3 := Step.genSend dS2 rfl (by decide)
  have t4 : Step cxCfg cxGen true dS3 dS4 :=
    Step.batRecv dS3 (cxGen 0) [cxGen 1, cxGen 2] rfl rfl (by decide)
  have t5 : Step cxCfg cxGen true dS4 dS5 :=
    Step.batRecv dS4 (cxGen 1) [cxGen 2] rfl rfl (by decide)
  have t6 : Step cxCfg cxGen true dS5 dS6 :=
    Step.batRecvFlush dS5 (cxGen 2) [] rfl rfl (by decide) (by decide)
  have t7 : Step cxCfg cxGen true dS6 dS7 :=
    Step.wRecv dS6 [cxGen 0, cxGen 1, cxGen 2] [] 0 true rfl rfl
  have t8 : Step cxCfg cxGen true dS7 dS8 :=
    Step.wPubDone dS7 [cxGen 0, cxGen 1, cxGen 2] true 0 rfl
  have t9 : Step cxCfg cxGen true dS8 dS9 := Step.genSend dS8 rfl (by decide)
  have t10 : Step cxCfg cxGen true dS9 dS10 := Step.genSend dS9 rfl (by decide)
  have t11 : Step cxCfg cxGen true dS10 dS11 := Step.genSend dS10 rfl (by decide)
  have t12 : Step cxCfg cxGen true dS11 dS12 :=
    Step.batRecv dS11 (cxGen 3) [cxGen 4, cxGen 5] rfl rfl (by decide)
  have t13 : Step cxCfg cxGen true dS12 dS13 :=
    Step.batRecv dS12 (cxGen 4) [cxGen 5] rfl rfl (by decide)
  have t14 : Step cxCfg cxGen true dS13 dS14 :=
    Step.batRecvFlush dS13 (cxGen 5) [] rfl rfl (by decide) (by decide)
  have t15 : Step cxCfg cxGen true dS14 dS15 :=
    Step.wRecv dS14 [cxGen 3, cxGen 4, cxGen 5] [] 0 true rfl rfl
  have t16 : Step cxCfg cxGen true dS15 dS16 :=
    Step.wPubDone dS15 [cxGen 3, cxGen 4, cxGen 5] true 0 rfl
  have t17 : Step cxCfg cxGen true dS16 dS17 := Step.genSend dS16 rfl (by decide)
  have t18 : Step cxCfg cxGen true dS17 dS18 :=
    Step.batRecv dS17 (cxGen 6) [] rfl rfl (by decide)
  exact Relation.ReflTransGen.tail (Relation.ReflTransGen.tail
    (Relation.ReflTransGen.tail (Relation.ReflTransGen.tail
      (Relation.ReflTransGen.tail (Relation.ReflTransGen.tail
        (Relation.ReflTransGen.tail (Relation.ReflTransGen.tail
          (Relation.ReflTransGen.tail (Relation.ReflTransGen.tail
            (Relation.ReflTransGen.tail (Relation.ReflTransGen.tail
              (Relation.ReflTransGen.tail (Relation.ReflTransGen.tail
                (Relation.ReflTransGen.tail (Relation.ReflTransGen.tail
                  (Relation.ReflTransGen.tail (Relation.ReflTransGen.tail
                    Relation.ReflTransGen.refl
                    t1) t2) t3) t4) t5) t6) t7) t8) t9) t10) t11) t12) t13)
                      t14) t15) t16) t17) t18

theorem d_s18_to_s25 : Relation.ReflTransGen (Step cxCfg cxGen true) dS18 dS25 := by
  have t19 : Step cxCfg cxGen true dS18 dS19 := Step.cancel dS18 rfl
  have t20 : Step cxCfg cxGen true dS19 dS20 := Step.genExit dS19 rfl rfl
  have t21 : Step cxCfg cxGen true dS20 dS21 := Step.batCancelDrop dS20 rfl rfl rfl
  have t22 : Step cxCfg cxGen true dS21 dS22 := Step.closeData dS21 rfl rfl rfl
  have t23 : Step cxCfg cxGen true dS22 dS23 := Step.closeBatch dS22 rfl rfl
  have t24 : Step cxCfg cxGen true dS23 dS24 := Step.wClosedExit dS23 0 rfl rfl rfl
  have t25 : Step cxCfg cxGen true dS24 dS25 :=
    Step.closeSink dS24 rfl (fun _ hw => Multiset.mem_singleton.mp hw)
  exact Relation.ReflTransGen.tail (Relation.ReflTransGen.tail
    (Relation.ReflTransGen.tail (Relation.ReflTransGen.tail
      (Relation.ReflTransGen.tail (Relation.ReflTransGen.tail
        (Relation.ReflTransGen.tail Relation.ReflTransGen.refl
          t19) t20) t21) t22) t23) t24) t25

theorem e_reach : Reach cxCfg cxGen false eS7 := by
  have t1 : Step cxCfg cxGen false (initState cxCfg) eS1 :=
    Step.cancel (initState cxCfg) rfl
  have t2 : Step cxCfg cxGen false eS1 eS2 := Step.genExit eS1 rfl rfl
  have t3 : Step cxCfg cxGen false eS2 eS3 := Step.closeData eS2 rfl rfl rfl
  have t4 : Step cxCfg cxGen false eS3 eS4 := Step.batClosedExit eS3 rfl rfl rfl rfl
  have t5 : Step cxCfg cxGen false eS4 eS5 := Step.closeBatch eS4 rfl rfl
  have t6 : Step cxCfg cxGen false eS5 eS6 := Step.wClosedExit eS5 0 rfl rfl rfl
  have t7 : Step cxCfg cxGen false eS6 eS7 :=
    Step.closeSink eS6 rfl (fun _ hw => Multiset.mem_singleton.mp hw)
  exact Relation.ReflTransGen.tail (Relation.ReflTransGen.tail
    (Relation.ReflTransGen.tail (Relation.ReflTransGen.tail
      (Relation.ReflTransGen.tail (Relation.ReflTransGen.tail
        (Relation.ReflTransGen.tail Relation.ReflTransGen.refl
          t1) t2) t3) t4) t5) t6) t7

theorem m_reach : Reach cxCfg mGen true mS2 :=
  Relation.ReflTransGen.tail
    (Relation.ReflTransGen.tail Relation.ReflTransGen.refl
      (Step.genSend (initState cxCfg) rfl (by decide)))
    (Step.genSend mS1 rfl (by decide))

/-! ## The claims -/

/-- C4: quality is assigned from one uniform draw `r` per envelope by
cumulative thresholds — `r < 0.01` yields CORRUPT, `0.01 ≤ r < 0.03`
PARTIAL, `0.03 ≤ r < 0.08` NOISY and `r ≥ 0.08` OK — and every draw
yields exactly one of the four values (the characterisations are
mutually exclusive and exhaustive). -/
theorem claim_C4 (r : ℚ) :
    (determineQuality r = .CORRUPT ↔ r < 1/100) ∧
    (determineQuality r = .PARTIAL ↔ 1/100 ≤ r ∧ r < 3/100) ∧
    (determineQuality r = .NOISY ↔ 3/100 ≤ r ∧ r < 8/100) ∧
    (determineQuality r = .OK ↔ 8/100 ≤ r) := by
  unfold determineQuality
  split_ifs with h1 h2 h3
  · refine ⟨?_, ?_, ?_, ?_⟩ <;> constructor <;> intro hh
    · exact h1
    · rfl
    · exact absurd hh (by simp)
    · exact absurd hh.1 (by intro hx; linarith)
    · exact absurd hh (by simp)
    · exact absurd hh.1 (by intro hx; linarith)
    · exact absurd hh (by simp)
    · exact absurd hh (by intro hx; linarith)
  · refine ⟨?_, ?_, ?_, ?_⟩ <;> constructor <;> intro hh
    · exact absurd hh (by simp)
    · exact absurd hh (not_lt.mpr (le_of_not_lt h1))
    · exact ⟨le_of_not_lt h1, h2⟩
    · rfl
    · exact absurd hh (by simp)
    · exact absurd h2 (not_lt.mpr hh.1)
    · exact absurd hh (by simp)
    · exact absurd h2 (not_lt.mpr (by linarith))
  · refine ⟨?_, ?_, ?_, ?_⟩ <;> constructor <;> intro hh
    · exact absurd hh (by simp)
    · exact absurd hh (not_lt.mpr (by linarith [le_of_not_lt h1]))
    · exact absurd hh (by simp)
    · exact absurd hh.2 (not_lt.mpr (le_of_not_lt h2))
    · exact ⟨le_of_not_lt h2, h3⟩
    · rfl
    · exact absurd hh (by simp)
    · exact absurd h3 (not_lt.mpr hh)
  · refine ⟨?_, ?_, ?_, ?_⟩ <;> constructor <;> intro hh
    · exact absurd hh (by simp)
    · exact absurd hh (not_lt.mpr (by linarith [le_of_not_lt h3]))
    · exact absurd hh (by simp)
    · exact absurd hh.2 (not_lt.mpr (by linarith [le_of_not_lt h3]))
    · exact absurd hh (by simp)
    · exact absurd hh.2 (not_lt.mpr (le_of_not_lt h3))
    · exact le_of_not_lt h3
    · rfl

/-- C3 counterexample: a configuration whose `batch_size` and
`max_workers` are both 0 — invalid according to the specification — is
accepted by `ToEngineConfig` without any error, so invalid values are
not reported at construction time. -/
theorem claim_C3_counterexample :
    ToEngineConfig cxParse cxCfgFile = .ok ⟨100000000, 0, 100000000, 0⟩ ∧
    cxCfgFile.BatchSize = 0 ∧ cxCfgFile.MaxWorkers = 0 := ⟨rfl, rfl, rfl⟩

/-- C3 amended: construction validates only that the two duration
strings parse — whenever they do, `ToEngineConfig` succeeds and copies
`BatchSize` and `MaxWorkers` through without any positivity check, and
`NewEngine` stores whatever configuration it is given.  No
positivity/`≥ 1` validation exists before `Start`. -/
theorem claim_C3_amended (pd : String → Option Int) (c : EngineConfig)
    (pr bt : Int) (T : Type) (cfg : Config) (seeder : Nat → ℚ)
    (f : ℚ → Int → T)
    (h1 : pd c.ProductionRate = some pr) (h2 : pd c.BatchTimeout = some bt) :
    ToEngineConfig pd c = .ok ⟨pr, c.BatchSize, bt, c.MaxWorkers⟩ ∧
    (NewEngine cfg seeder f).config = cfg := by
  constructor
  · unfold ToEngineConfig
    rw [h1, h2]
  · rfl

/-- C3 amended, witness at the concrete parse function and config
file. -/
theorem claim_C3_amended_witness :
    ToEngineConfig cxParse cxCfgFile = .ok ⟨100000000, 0, 100000000, 0⟩ ∧
    (NewEngine cxCfg (fun _ => 0) (fun q _ => q)).config = cxCfg :=
  claim_C3_amended cxParse cxCfgFile 100000000 100000000 ℚ cxCfg
    (fun _ => 0) (fun q _ => q) rfl rfl

/-- C7: in the batcher loop, an envelope whose arrival makes the batch
reach `BatchSize` causes an immediate flush (no timer involved); an
arrival below the limit only appends; a ticker fire flushes a non-empty
batch and is a no-op on an empty one. -/
theorem claim_C7 {α : Type} (batchSize : Int) (st : BatcherState α) (e : α) :
    (((st.batch ++ [e]).length : Int) ≥ batchSize →
      processEvent batchSize st (.data e) = ⟨[], st.sent ++ [st.batch ++ [e]]⟩) ∧
    (((st.batch ++ [e]).length : Int) < batchSize →
      processEvent batchSize st (.data e) = ⟨st.batch ++ [e], st.sent⟩) ∧
    (st.batch ≠ [] → processEvent batchSize st .timer = ⟨[], st.sent ++ [st.batch]⟩) ∧
    (st.batch = [] → processEvent batchSize st .timer = st) := by
  refine ⟨fun h => ?_, fun h => ?_, fun h => ?_, fun h => ?_⟩
  · simp only [processEvent]
    rw [if_pos h]
  · simp only [processEvent]
    rw [if_neg (not_le.mpr h)]
  · simp only [processEvent]
    rw [if_neg (by simpa [List.isEmpty_iff] using h)]
  · simp only [processEvent]
    rw [if_pos (by simpa [List.isEmpty_iff] using h)]

/-- C7 witness: concrete flushes with batch size 3. -/
theorem claim_C7_witness :
    processEvent (3 : Int) (⟨[1, 2], []⟩ : BatcherState ℕ) (.data 5) =
        ⟨[], [[1, 2, 5]]⟩ ∧
    processEvent (3 : Int) (⟨[1], []⟩ : BatcherState ℕ) (.data 5) = ⟨[1, 5], []⟩ ∧
    processEvent (3 : Int) (⟨[7], []⟩ : BatcherState ℕ) .timer = ⟨[], [[7]]⟩ ∧
    processEvent (3 : Int) (⟨[], []⟩ : BatcherState ℕ) .timer = ⟨[], []⟩ :=
  ⟨(claim_C7 3 ⟨[1, 2], []⟩ 5).1 (by decide),
   (claim_C7 3 ⟨[1], []⟩ 5).2.1 (by decide),
   (claim_C7 3 ⟨[7], []⟩ 0).2.2.1 (by decide),
   (claim_C7 3 ⟨[], []⟩ 0).2.2.2 rfl⟩

/-- C5: `Start` returns an error exactly when closing the publisher
fails (`startResult`), and a failed `PublishBatch` is a normal worker
step: the batch is consumed, the failure is merely counted, the worker
goes back to `idle`, and nothing else in the pipeline is touched, so a
publish failure never stops the pipeline and never reaches `Start`'s
return value. -/
theorem claim_C5 {T : Type} (cfg : Config) (genv : Nat → SensorData T)
    (drop : Bool) (s : EState T) (b : List (SensorData T))
    (rest : Multiset (WStatus T))
    (h : s.workers = .publishing b false ::ₘ rest) :
    (∀ ce : Option String, startResult ce = none ↔ ce = none) ∧
    Step cfg genv drop s
      { s with workers := .idle ::ₘ rest,
               delivered := s.delivered ++ [b],
               pubErrors := s.pubErrors + 1 } := by
  constructor
  · intro ce
    cases ce <;> simp [startResult]
  · exact Step.wPubDone s b false rest h

/-- C5 witness: a concrete state whose single worker is inside a
failing publish. -/
theorem claim_C5_witness :
    (∀ ce : Option String, startResult ce = none ↔ ce = none) ∧
    Step cxCfg cxGen true wS
      { wS with workers := .idle ::ₘ 0,
                delivered := wS.delivered ++ [[cxGen 0]],
                pubErrors := wS.pubErrors + 1 } :=
  claim_C5 cxCfg cxGen true wS [cxGen 0] 0 rfl

/-- C10: the envelope channel and the batch channel are created with the
literal capacities 100 and 10, independent of the configuration: in
every reachable state of every configuration the envelope queue holds at
most 100 envelopes and the batch queue at most 10 batches, so the
generator can never run more than the buffer capacity ahead of the
batcher. -/
theorem claim_C10 {T : Type} (cfg : Config) (genv : Nat → SensorData T)
    (drop : Bool) (s : EState T) (h : Reach cfg genv drop s) :
    s.dataQ.length ≤ 100 ∧ s.batchQ.length ≤ 10 :=
  reach_caps h

/-- C10 witness: the bound at a concrete reachable state with a
non-empty envelope queue. -/
theorem claim_C10_witness :
    cxS1.dataQ.length ≤ 100 ∧ cxS1.batchQ.length ≤ 10 :=
  claim_C10 cxCfg cxGen true cxS1 cx_reach_s1

/-- C2: for every run of `Start`, the publisher's `Close` happens only
as the unique transition into phase 3 (so at most once, and exactly once
in every run that completes), and when it happens every worker has
already returned and no `PublishBatch` call is outstanding; once the
sink is closed it stays closed, and any state with the sink closed has
all workers done. -/
theorem claim_C2 {T : Type} (cfg : Config) (genv : Nat → SensorData T)
    (drop : Bool) (s t : EState T) (hr : Reach cfg genv drop s)
    (hs : Step cfg genv drop s t) :
    (s.sinkClosed = false → t.sinkClosed = true →
      (∀ w ∈ s.workers, w = WStatus.done) ∧
      ¬∃ b ok, WStatus.publishing b ok ∈ s.workers) ∧
    (s.sinkClosed = true → t.sinkClosed = true) ∧
    (s.phase = 3 → s.sinkClosed = true) ∧
    (s.sinkClosed = true → ∀ w ∈ s.workers, w = WStatus.done) := by
  obtain ⟨hph1, hph2, hph3⟩ := reach_phase hr
  refine ⟨?_, ?_, fun h3 => hph1.mpr h3, fun hsc => hph2 (hph1.mp hsc)⟩
  · intro h0 h1
    cases hs with
    | cancel hc => simp [h0] at h1
    | genSend hg hq => simp [h0] at h1
    | genExit hg hc => simp [h0] at h1
    | batRecv e rest hb hq hlen => simp [h0] at h1
    | batRecvFlush e rest hb hq hlen hroom => simp [h0] at h1
    | batRecvFlushDrop e rest hd hb hq hlen hc => simp [h0] at h1
    | batTimerFlush hb hcur hroom => simp [h0] at h1
    | batTimerFlushDrop hd hb hcur hc => simp [h0] at h1
    | batClosedExit hb hdc hq hcur => simp [h0] at h1
    | batClosedFlush hb hdc hq hcur hroom => simp [h0] at h1
    | batClosedFlushDrop hd hb hdc hq hcur hc => simp [h0] at h1
    | batCancelFlush hd hb hc hcur hroom => simp [h0] at h1
    | batCancelDrop hd hb hc => simp [h0] at h1
    | wRecv b bq rest ok hw hq => simp [h0] at h1
    | wPubDone b ok rest hw => simp [h0] at h1
    | wClosedExit rest hw hbc hq => simp [h0] at h1
    | wCancelExit rest hd hw hc => simp [h0] at h1
    | closeData hp hc hg => simp [h0] at h1
    | closeBatch hp hb => simp [h0] at h1
    | closeSink hp hall =>
      refine ⟨hall, ?_⟩
      rintro ⟨b, ok, hmem⟩
      exact absurd (hall _ hmem) (by simp)
  · intro h1
    cases hs <;> simp_all

/-- C2 witness: the theorem applied to the spawn state and its first
transition. -/
theorem claim_C2_witness :
    ((initState cxCfg : EState Unit).sinkClosed = false → eS1.sinkClosed = true →
      (∀ w ∈ (initState cxCfg : EState Unit).workers, w = WStatus.done) ∧
      ¬∃ b ok, WStatus.publishing b ok ∈ (initState cxCfg : EState Unit).workers) ∧
    ((initState cxCfg : EState Unit).sinkClosed = true → eS1.sinkClosed = true) ∧
    ((initState cxCfg : EState Unit).phase = 3 →
      (initState cxCfg : EState Unit).sinkClosed = true) ∧
    ((initState cxCfg : EState Unit).sinkClosed = true →
      ∀ w ∈ (initState cxCfg : EState Unit).workers, w = WStatus.done) :=
  claim_C2 cxCfg cxGen false (initState cxCfg) eS1 Relation.ReflTransGen.refl
    (Step.cancel (initState cxCfg) rfl)

/-- C6: when `BatchSize ≥ 1`, every batch ever sent into the batch
queue — whether still queued, being published, or delivered — has
between 1 and `BatchSize` envelopes: no batch exceeds the maximum and no
empty batch is ever enqueued. -/
theorem claim_C6 {T : Type} (cfg : Config) (genv : Nat → SensorData T)
    (drop : Bool) (s : EState T) (hbs : 1 ≤ cfg.BatchSize)
    (h : Reach cfg genv drop s) :
    ∀ b : List (SensorData T),
      (b ∈ s.batchQ ∨ (∃ ok, WStatus.publishing b ok ∈ s.workers) ∨
        b ∈ s.delivered) →
      1 ≤ b.length ∧ (b.length : Int) ≤ cfg.BatchSize := by
  obtain ⟨_, hq, hw, hd⟩ := reach_batchOK hbs h
  rintro b (hb | ⟨ok, hb⟩ | hb)
  · exact hq b hb
  · exact hw b ok hb
  · exact hd b hb

/-- C6 witness: the bounds at the end of the concrete seven-envelope
run, whose sink received two batches of three. -/
theorem claim_C6_witness :
    (1 : Int) ≤ cxCfg.BatchSize ∧
    ∀ b : List (SensorData Unit),
      (b ∈ dS25.batchQ ∨ (∃ ok, WStatus.publishing b ok ∈ dS25.workers) ∨
        b ∈ dS25.delivered) →
      1 ≤ b.length ∧ (b.length : Int) ≤ cxCfg.BatchSize :=
  ⟨by decide, claim_C6 cxCfg cxGen true dS25 (by decide)
    (Relation.ReflTransGen.trans d_reach_s18 d_s18_to_s25)⟩

/-- C9: within one generator instance, the `k`-th successfully enqueued
envelope carries the sequentially assigned identifier `sensor-<k>`, and
no two envelopes of the run share an identifier: identifiers are unique
and follow generation order. -/
theorem claim_C9 {T : Type} (seeder : Nat → ℚ) (clock : Nat → Int)
    (draw : Nat → ℚ) (f : ℚ → Int → T) (cfg : Config) (drop : Bool)
    (s : EState T) (h : Reach cfg (mkSensorData seeder clock draw f) drop s)
    (i j : ℕ) (hi : i < s.log.length) (hj : j < s.log.length) :
    (s.log.get ⟨i, hi⟩).ID = sensorID i ∧
    (i ≠ j → (s.log.get ⟨i, hi⟩).ID ≠ (s.log.get ⟨j, hj⟩).ID) := by
  have hlog := reach_log h
  have hgeti : s.log.get ⟨i, hi⟩ = mkSensorData seeder clock draw f i := by
    rw [List.get_eq_getElem]
    simp only [hlog]
    rw [List.getElem_map, List.getElem_range]
  have hgetj : s.log.get ⟨j, hj⟩ = mkSensorData seeder clock draw f j := by
    rw [List.get_eq_getElem]
    simp only [hlog]
    rw [List.getElem_map, List.getElem_range]
  refine ⟨by rw [hgeti]; rfl, fun hne heq => hne ?_⟩
  rw [hgeti, hgetj] at heq
  exact sensorID_injective heq

/-- C9 witness: the first two envelopes of a concrete run carry
`sensor-0` and `sensor-1`, which differ. -/
theorem claim_C9_witness :
    ((mS2.log.get ⟨0, by decide⟩).ID = sensorID 0) ∧
    ((0 : ℕ) ≠ 1 →
      (mS2.log.get ⟨0, by decide⟩).ID ≠ (mS2.log.get ⟨1, by decide⟩).ID) :=
  claim_C9 (fun _ => 0) (fun _ => 0) (fun _ => 1/2) (fun q _ => q) cxCfg true
    mS2 m_reach 0 1 (by decide) (by decide)

/-- C1 counterexample: a complete run of the pipeline (Go `select`
nondeterminism resolved adversarially but legally) in which one envelope
is successfully enqueued before cancellation, `Start` runs its full
shutdown and closes the sink, and the envelope is in no delivered batch:
the batcher's `ctx.Done()` branch abandoned it in the envelope queue.
Worker count is 1. -/
theorem claim_C1_counterexample :
    Reach cxCfg cxGen true cxS1 ∧ cxS1.cancelled = false ∧
    cxS1.dataQ = [cxGen 0] ∧ cxS1.log = [cxGen 0] ∧
    Relation.ReflTransGen (Step cxCfg cxGen true) cxS1 cxS8 ∧
    cxS8.phase = 3 ∧ cxS8.sinkClosed = true ∧ cxS8.log = [cxGen 0] ∧
    cxS8.delivered = [] ∧ cxCfg.MaxWorkers = 1 :=
  ⟨cx_reach_s1, rfl, rfl, rfl, cx_s1_to_s8, rfl, rfl, rfl, rfl, rfl⟩

/-- C1 amended: in runs where the Batcher and the Publisher workers
terminate through channel close rather than through their `ctx.Done()`
branches (`drop = false`), every enqueued envelope is at every moment in
exactly one place (conservation — no loss, no duplication); when such a
run completes, with any worker count ≥ 1 the delivered batches contain
exactly the enqueued envelopes, and with worker count 1 they contain
them in generation order.  (The unrestricted claim is refuted by the
counterexample: the `ctx.Done()` branches may drop envelopes that were
enqueued before cancellation.) -/
theorem claim_C1_amended {T : Type} (cfg : Config) (genv : Nat → SensorData T)
    (s : EState T) (h : Reach cfg genv false s) :
    ((s.log : Multiset (SensorData T)) =
      (s.delivered.flatten : List (SensorData T)) + inflight s.workers +
      (s.batchQ.flatten : List (SensorData T)) + (s.cur : Multiset (SensorData T)) +
      (s.dataQ : Multiset (SensorData T))) ∧
    (1 ≤ cfg.MaxWorkers → s.phase = 3 →
      (s.delivered.flatten : Multiset (SensorData T)) =
        (s.log : Multiset (SensorData T))) ∧
    (cfg.MaxWorkers = 1 → s.phase = 3 → s.delivered.flatten = s.log) :=
  ⟨reach_conserve h, fun hW hp => reach_final_multiset hW h hp,
   fun hW hp => reach_final_order hW h hp⟩

/-- C1 amended witness: the conservation equation and the final
delivery equations at the end of a concrete drain-only run. -/
theorem claim_C1_amended_witness :
    ((eS7.log : Multiset (SensorData Unit)) =
      (eS7.delivered.flatten : List (SensorData Unit)) + inflight eS7.workers +
      (eS7.batchQ.flatten : List (SensorData Unit)) +
      (eS7.cur : Multiset (SensorData Unit)) +
      (eS7.dataQ : Multiset (SensorData Unit))) ∧
    ((eS7.delivered.flatten : Multiset (SensorData Unit)) =
      (eS7.log : Multiset (SensorData Unit))) ∧
    eS7.delivered.flatten = eS7.log :=
  ⟨(claim_C1_amended cxCfg cxGen eS7 e_reach).1,
   (claim_C1_amended cxCfg cxGen eS7 e_reach).2.1 (by decide) rfl,
   (claim_C1_amended cxCfg cxGen eS7 e_reach).2.2 rfl rfl⟩

/-- C8 counterexample: feeding exactly 7 envelopes with batch size 3,
an effectively disabled timeout and one worker, then cancelling, does
not guarantee batches of sizes `[3, 3, 1]`: in this complete run the
batcher's `ctx.Done()` branch drops the seventh envelope and the sink
receives sizes `[3, 3]`. -/
theorem claim_C8_counterexample :
    cxCfg.BatchSize = 3 ∧ cxCfg.MaxWorkers = 1 ∧
    Reach cxCfg cxGen true dS18 ∧ dS18.cancelled = false ∧
    dS18.log = [cxGen 0, cxGen 1, cxGen 2, cxGen 3, cxGen 4, cxGen 5, cxGen 6] ∧
    Relation.ReflTransGen (Step cxCfg cxGen true) dS18 dS25 ∧
    dS25.phase = 3 ∧ dS25.sinkClosed = true ∧
    dS25.delivered.map List.length = [3, 3] :=
  ⟨rfl, rfl, d_reach_s18, rfl, rfl, d_s18_to_s25, rfl, rfl, rfl⟩

/-- C8 amended: (i) the batcher itself, fed exactly 7 envelopes with
batch size 3 and no timer fire, cuts batches `[3, 3, 1]` in order
(including the final close-flush); (ii) concatenating the batcher's
output always reproduces the arrival order (FIFO from generator through
batcher); (iii) in a drain-only run with one worker, the sink receives
the enqueued envelopes in generation order.  (The unrestricted
delivered-sizes claim is refuted by the counterexample: after
cancellation the final batch may be dropped.) -/
theorem claim_C8_amended {T : Type} (cfg : Config) (genv : Nat → SensorData T)
    (s : EState T) (batchSize : Int) (evs : List (BEvent ℕ))
    (hW : cfg.MaxWorkers = 1) (h : Reach cfg genv false s) (hp : s.phase = 3) :
    batcherOutput (3 : Int) ((List.range 7).map BEvent.data) =
      [[0, 1, 2], [3, 4, 5], [6]] ∧
    (batcherOutput batchSize evs).flatten = eventData evs ∧
    s.delivered.flatten = s.log :=
  ⟨by decide, batcherOutput_flatten batchSize evs, reach_final_order hW h hp⟩

/-- C8 amended witness: concrete instances of all three parts. -/
theorem claim_C8_amended_witness :
    (batcherOutput (3 : Int) ((List.range 7).map BEvent.data) =
      [[0, 1, 2], [3, 4, 5], [6]]) ∧
    ((batcherOutput (2 : Int) [BEvent.data 1, BEvent.timer, BEvent.data 2]).flatten =
      eventData [BEvent.data 1, BEvent.timer, BEvent.data 2]) ∧
    eS7.delivered.flatten = eS7.log :=
  ⟨(claim_C8_amended cxCfg cxGen eS7 2
      [BEvent.data 1, BEvent.timer, BEvent.data 2] rfl e_reach rfl).1,
   (claim_C8_amended cxCfg cxGen eS7 2
      [BEvent.data 1, BEvent.timer, BEvent.data 2] rfl e_reach rfl).2.1,
   (claim_C8_amended cxCfg cxGen eS7 2
      [BEvent.data 1, BEvent.timer, BEvent.data 2] rfl e_reach rfl).2.2⟩

end GoSense
